import Mathlib

/-!
Verification of the messaging core of the uniboe platform backend.

This file gives a shallow embedding, in Lean, of the chat subsystem of the
backend (`backend/core/services/chat/chat_service.py` and
`backend/core/utils/encryption.py`), together with theorems settling the
frozen behavioural claims about it.

Modelling conventions:
* User ids, conversation ids and message ids are `Nat` (Python `uuid.UUID`
  values compare by their 128-bit integer value, so `Nat` with `<` models the
  total order used by `get_or_create_conversation`).
* The Supabase relational store is modelled as an explicit `Store` value:
  a list of conversation rows and a list of message rows, plus counters that
  stand in for id generation and the insertion clock (`created_at`).
* Python exceptions become `Except` results; the service's catch-all
  `except Exception` re-raise is modelled by the `ChatError.generic` variant.
* The external `cryptography.fernet` library is not part of the repository; it
  is modelled as a token scheme satisfying the library's contract: `encrypt`
  produces a tagged token, `decrypt` inverts exactly the tokens `encrypt`
  produces and fails on every other string (authenticated encryption).
* The profile join used only to decorate responses with sender display names
  is dropped: it reads a separate `profiles` table that never influences the
  behaviour the claims are about.
-/

namespace Uniboe

/-- Decidable equality for `Except`, needed so that claims about service
results can be settled by evaluation on concrete stores. -/
instance instDecEqExcept {ε α : Type} [DecidableEq ε] [DecidableEq α] :
    DecidableEq (Except ε α) := fun x y =>
  match x, y with
  | .ok a, .ok b => if h : a = b then .isTrue (by rw [h]) else .isFalse (by simp [h])
  | .error a, .error b => if h : a = b then .isTrue (by rw [h]) else .isFalse (by simp [h])
  | .ok _, .error _ => .isFalse (by simp)
  | .error _, .ok _ => .isFalse (by simp)

/-! ## Cipher (`backend/core/utils/encryption.py`) -/

/-- Error kinds raised by the encryption utilities: `emptyInput` models the
`ValueError` on empty/whitespace-only input, `decryptionFailed` models the
wrapped exception when a token cannot be decrypted. -/
inductive EncError : Type
  | emptyInput
  | decryptionFailed
deriving DecidableEq, Repr

/-- Model of the version/timestamp header of a Fernet token (the literal
leading characters of every token produced with the derived key). -/
def fernetMagic : List Char := "gAAAAAB".data

/-- Model of `Fernet(key).encrypt`: an injective token scheme — the header
followed by the payload. The real library additionally bakes in an IV and an
HMAC; what matters for the claims is that `fernetDecrypt` inverts exactly the
strings this function produces. -/
def fernetEncrypt (s : String) : String := ⟨fernetMagic ++ s.data⟩

/-- Model of `Fernet(key).decrypt`: succeeds exactly on tokens produced by
`fernetEncrypt` (authenticated decryption), failing on malformed or corrupted
input. -/
def fernetDecrypt (t : String) : Option String :=
  if t.data.take fernetMagic.length = fernetMagic then
    some ⟨t.data.drop fernetMagic.length⟩
  else
    none

/-- Python's `str.isspace` on a single character — the exact set of code
points that `str.strip()` (with no argument) removes: the ASCII whitespace
and separator controls, NEL, NBSP, and the Unicode space separators. -/
def pyIsSpace (c : Char) : Bool :=
  c.toNat = 0x09 || c.toNat = 0x0a || c.toNat = 0x0b || c.toNat = 0x0c ||
  c.toNat = 0x0d || c.toNat = 0x1c || c.toNat = 0x1d || c.toNat = 0x1e ||
  c.toNat = 0x1f || c.toNat = 0x20 || c.toNat = 0x85 || c.toNat = 0xa0 ||
  c.toNat = 0x1680 || (0x2000 ≤ c.toNat && c.toNat ≤ 0x200a) ||
  c.toNat = 0x2028 || c.toNat = 0x2029 || c.toNat = 0x202f ||
  c.toNat = 0x205f || c.toNat = 0x3000

/-- `encrypt_message` from `encryption.py`: rejects content that is empty or
whitespace-only (`not content or not content.strip()`, which holds exactly
when every character is Python whitespace), otherwise returns the Fernet
token. -/
def encrypt_message (content : String) : Except EncError String :=
  if content.data.all pyIsSpace then
    .error .emptyInput
  else
    .ok (fernetEncrypt content)

/-- `decrypt_message` from `encryption.py`: rejects the empty string
(`not encrypted_content`), otherwise attempts Fernet decryption and fails
with a wrapped error when the token is invalid. -/
def decrypt_message (encrypted_content : String) : Except EncError String :=
  if encrypted_content = "" then
    .error .emptyInput
  else
    match fernetDecrypt encrypted_content with
    | some s => .ok s
    | none => .error .decryptionFailed

/-! ## Data model (`conversations` and `messages` tables) -/

/-- A row of the `conversations` table. -/
structure ConversationRow : Type where
  id : Nat
  participant_1_id : Nat
  participant_2_id : Nat
  last_message_at : Nat
  created_at : Nat
deriving DecidableEq, Repr

/-- A row of the `messages` table. -/
structure MessageRow : Type where
  id : Nat
  conversation_id : Nat
  sender_id : Nat
  content_encrypted : String
  is_read : Bool
  created_at : Nat
deriving DecidableEq, Repr

/-- The relational store: both tables, plus fresh-id counters and a logical
clock standing in for the store's id generation and `created_at` stamping. -/
structure Store : Type where
  conversations : List ConversationRow
  messages : List MessageRow
  nextConvId : Nat
  nextMsgId : Nat
  now : Nat
deriving DecidableEq, Repr

/-- Error kinds raised by `ChatService`; `generic` models the catch-all
`except Exception as e: raise Exception(...)` wrapper. -/
inductive ChatError : Type
  | invalidParticipant
  | conversationNotFound
  | unauthorized
  | generic
deriving DecidableEq, Repr

/-- A formatted message as returned to callers: the stored fields plus the
decrypted (or, on send, echoed) plaintext `content`. -/
structure MessageOut : Type where
  id : Nat
  conversation_id : Nat
  sender_id : Nat
  content_encrypted : String
  content : String
  is_read : Bool
  created_at : Nat
deriving DecidableEq, Repr

/-- The `MessageListResponse` model returned by `get_conversation_messages`. -/
structure MessageListResponse : Type where
  messages : List MessageOut
  total : Nat
  page : Nat
  page_size : Nat
  has_more : Bool
deriving DecidableEq, Repr

/-! ## Store queries -/

/-- The `SELECT ... eq(participant_1_id, p1).eq(participant_2_id, p2)` lookup. -/
def findConversationByPair (convs : List ConversationRow) (p1 p2 : Nat) :
    Option ConversationRow :=
  convs.find? (fun c => c.participant_1_id = p1 && c.participant_2_id = p2)

/-- The `SELECT ... eq(id, cid)` lookup. -/
def findConversationById (convs : List ConversationRow) (cid : Nat) :
    Option ConversationRow :=
  convs.find? (fun c => c.id = cid)

/-- The participancy test `participant_1_id == user or participant_2_id == user`
(the service raises `UnauthorizedError` when it is false). -/
def isParticipant (c : ConversationRow) (user_id : Nat) : Bool :=
  c.participant_1_id = user_id || c.participant_2_id = user_id

/-- The `INSERT` into `conversations`, subject to the store's uniqueness
constraint on `(participant_1_id, participant_2_id)`: the insert is rejected
(`.error ()`, modelling the store's APIError) when a row with the same pair
already exists in the snapshot it runs against. -/
def insertConversation (st : Store) (p1 p2 : Nat) :
    Except Unit (ConversationRow × Store) :=
  if st.conversations.any (fun c => c.participant_1_id = p1 && c.participant_2_id = p2) then
    .error ()
  else
    let row : ConversationRow :=
      ⟨st.nextConvId, p1, p2, st.now, st.now⟩
    .ok (row, { st with conversations := st.conversations ++ [row],
                        nextConvId := st.nextConvId + 1,
                        now := st.now + 1 })

/-! ## Conversation identity resolution (`get_or_create_conversation`) -/

/-- The canonical ordering step: `if user_id < participant_id` then
`(user_id, participant_id)` else `(participant_id, user_id)`. -/
def orderPair (u p : Nat) : Nat × Nat :=
  if u < p then (u, p) else (p, u)

/-- `get_or_create_conversation` with the `SELECT` and the `INSERT` evaluated
against two possibly different store snapshots `stSel` and `stIns`, modelling
a concurrent writer acting between the lookup and the insert. The sequential
call is the special case `stSel = stIns`. The post-insert re-`SELECT` (which
only re-reads the row just inserted, joined with profile decoration) is folded
into returning the inserted row. A constraint rejection of the insert falls
into the service's catch-all and is re-raised as a generic error. -/
def get_or_create_conversation_raced (stSel stIns : Store)
    (user_id participant_id : Nat) :
    Except ChatError (ConversationRow × Store) :=
  if user_id = participant_id then
    .error .invalidParticipant
  else
    match findConversationByPair stSel.conversations
        (orderPair user_id participant_id).1 (orderPair user_id participant_id).2 with
    | some conv => .ok (conv, stIns)
    | none =>
      match insertConversation stIns
          (orderPair user_id participant_id).1 (orderPair user_id participant_id).2 with
      | .ok rs => .ok rs
      | .error _ => .error .generic

/-- `ChatService.get_or_create_conversation` run sequentially: the lookup and
the insert both see the same store. -/
def get_or_create_conversation (st : Store) (user_id participant_id : Nat) :
    Except ChatError (ConversationRow × Store) :=
  get_or_create_conversation_raced st st user_id participant_id

/-! ## Sending (`send_message`) -/

/-- `ChatService.send_message`: verifies the conversation exists and the
sender is one of its participants, encrypts the content, appends the row
(storing only the ciphertext), and echoes the original plaintext in the
in-memory response. A `ValueError` from `encrypt_message` falls into the
catch-all and becomes a generic error. -/
def send_message (st : Store) (conversation_id sender_id : Nat)
    (content : String) : Except ChatError (MessageOut × Store) :=
  match findConversationById st.conversations conversation_id with
  | none => .error .conversationNotFound
  | some conv =>
    if !(isParticipant conv sender_id) then
      .error .unauthorized
    else
      match encrypt_message content with
      | .error _ => .error .generic
      | .ok encrypted_content =>
        let row : MessageRow :=
          ⟨st.nextMsgId, conversation_id, sender_id, encrypted_content, false, st.now⟩
        .ok ({ id := row.id
               conversation_id := conversation_id
               sender_id := sender_id
               content_encrypted := encrypted_content
               content := content
               is_read := false
               created_at := row.created_at },
             { st with messages := st.messages ++ [row],
                       nextMsgId := st.nextMsgId + 1,
                       now := st.now + 1 })

/-! ## Read state (`mark_messages_as_read`) -/

/-- One iteration of the `mark_messages_as_read` loop: load the message by id;
if it exists and the caller is not its sender, run the unconditional
`UPDATE messages SET is_read = true WHERE id = mid` and count it (the update
always returns the matched row, read or not — there is no `is_read = false`
filter in this query). -/
def markOneMessageRead (st : Store) (user_id mid : Nat) : Nat × Store :=
  match st.messages.find? (fun m => m.id = mid) with
  | none => (0, st)
  | some m =>
    if m.sender_id ≠ user_id then
      (1, { st with messages :=
              st.messages.map (fun r => if r.id = mid then { r with is_read := true } else r) })
    else
      (0, st)

/-- `ChatService.mark_messages_as_read`: folds the per-id loop over the list,
summing the per-id counts. Never inspects the `conversations` table. -/
def mark_messages_as_read (st : Store) (user_id : Nat) (message_ids : List Nat) :
    Nat × Store :=
  message_ids.foldl
    (fun acc mid =>
      let r := markOneMessageRead acc.2 user_id mid
      (acc.1 + r.1, r.2))
    (0, st)

/-! ## Listing (`get_conversation_messages`) -/

/-- Insertion step of a stable-enough descending sort by a `Nat` key,
modelling the store's `order(..., desc=True)`. -/
def insertByKeyDesc {α : Type} (key : α → Nat) (a : α) : List α → List α
  | [] => [a]
  | x :: xs => if key x ≤ key a then a :: x :: xs else x :: insertByKeyDesc key a xs

/-- Descending sort by a `Nat` key (insertion sort). -/
def sortByKeyDesc {α : Type} (key : α → Nat) : List α → List α
  | [] => []
  | x :: xs => insertByKeyDesc key x (sortByKeyDesc key xs)

/-- The conversation's messages ordered newest-first
(`order("created_at", desc=True)`). -/
def conversationMessages (st : Store) (cid : Nat) : List MessageRow :=
  sortByKeyDesc (fun m => m.created_at)
    (st.messages.filter (fun m => m.conversation_id = cid))

/-- The `range(offset, offset + page_size - 1)` slice with 1-indexed pages:
drop `(page - 1) * page_size` rows, take `page_size`. -/
def pageOf (l : List MessageRow) (page page_size : Nat) : List MessageRow :=
  (l.drop ((page - 1) * page_size)).take page_size

/-- Per-row decryption and formatting: `none` models the
`except`-and-`continue` skip of a row whose ciphertext fails to decrypt. -/
def formatMessage (m : MessageRow) : Option MessageOut :=
  match decrypt_message m.content_encrypted with
  | .ok content =>
    some { id := m.id
           conversation_id := m.conversation_id
           sender_id := m.sender_id
           content_encrypted := m.content_encrypted
           content := content
           is_read := m.is_read
           created_at := m.created_at }
  | .error _ => none

/-- `ChatService.get_conversation_messages`: participant check, exact count,
newest-first slice, then per-row decrypt-or-skip. When the slice is empty the
service short-circuits with an empty response carrying `total = 0`. -/
def get_conversation_messages (st : Store) (conversation_id user_id page page_size : Nat) :
    Except ChatError MessageListResponse :=
  match findConversationById st.conversations conversation_id with
  | none => .error .conversationNotFound
  | some conv =>
    if !(isParticipant conv user_id) then
      .error .unauthorized
    else
      let total := (st.messages.filter (fun m => m.conversation_id = conversation_id)).length
      let slice := pageOf (conversationMessages st conversation_id) page page_size
      if slice.isEmpty then
        .ok { messages := [], total := 0, page := page, page_size := page_size,
              has_more := false }
      else
        .ok { messages := slice.filterMap formatMessage
              total := total
              page := page
              page_size := page_size
              has_more := decide (page * page_size < total) }

/-! ## Search (`search_messages`) -/

/-- Python's `.lower()` on a string. -/
def toLowerStr (s : String) : String := ⟨s.data.map Char.toLower⟩

/-- Whether `hay` starts with `needle`. -/
def startsWithList : List Char → List Char → Bool
  | _, [] => true
  | [], _ :: _ => false
  | a :: as, b :: bs => a = b && startsWithList as bs

/-- Python's `needle in hay` substring containment on character lists. -/
def containsSub (hay needle : List Char) : Bool :=
  match hay with
  | [] => needle.isEmpty
  | _ :: rest => startsWithList hay needle || containsSub rest needle

/-- The per-conversation scan of `search_messages`: decrypt each stored row
(skipping failures) and keep those whose lowered plaintext contains the
lowered query. -/
def searchConvMessages (st : Store) (cid : Nat) (query_lower : String) :
    List MessageOut :=
  (st.messages.filter (fun m => m.conversation_id = cid)).filterMap
    (fun m =>
      match formatMessage m with
      | some out =>
        if containsSub (toLowerStr out.content).data query_lower.data then some out else none
      | none => none)

/-- The conversation ids where the user is either participant (two equality
queries, concatenated). -/
def userConversationIds (st : Store) (user_id : Nat) : List Nat :=
  ((st.conversations.filter (fun c => c.participant_1_id = user_id)).map (fun c => c.id)) ++
  ((st.conversations.filter (fun c => c.participant_2_id = user_id)).map (fun c => c.id))

/-- `ChatService.search_messages`: with an explicit conversation id, a missing
conversation or a non-participant caller yields the empty list (no error);
otherwise all in-scope messages are decrypted, matched case-insensitively and
sorted newest-first. -/
def search_messages (st : Store) (user_id : Nat) (query : String)
    (conversation_id : Option Nat) : Except ChatError (List MessageOut) :=
  match conversation_id with
  | some cid =>
    match findConversationById st.conversations cid with
    | none => .ok []
    | some conv =>
      if !(isParticipant conv user_id) then
        .ok []
      else
        .ok (sortByKeyDesc (fun out => out.created_at)
              (searchConvMessages st cid (toLowerStr query)))
  | none =>
    .ok (sortByKeyDesc (fun out => out.created_at)
          ((userConversationIds st user_id).flatMap
            (fun cid => searchConvMessages st cid (toLowerStr query))))

/-! ## Lemmas about the cipher -/

/-- Unfolding the data of an encrypted token. -/
lemma fernetEncrypt_data (s : String) : (fernetEncrypt s).data = fernetMagic ++ s.data := rfl

/-- Decryption inverts encryption at the Fernet layer. -/
lemma fernetDecrypt_fernetEncrypt (s : String) : fernetDecrypt (fernetEncrypt s) = some s := by
  unfold fernetDecrypt
  rw [fernetEncrypt_data, List.take_left, if_pos rfl, List.drop_left]

/-- An encrypted token is never the empty string. -/
lemma fernetEncrypt_ne_empty (s : String) : fernetEncrypt s ≠ "" := by
  intro h
  have h2 : fernetMagic ++ s.data = ([] : List Char) := congrArg String.data h
  rcases List.append_eq_nil.mp h2 with ⟨h3, -⟩
  exact absurd h3 (by decide)

/-- An encrypted token differs from its plaintext (the header lengthens it). -/
lemma fernetEncrypt_ne (s : String) : fernetEncrypt s ≠ s := by
  intro h
  have h2 : fernetMagic ++ s.data = s.data := congrArg String.data h
  have h3 : (fernetMagic ++ s.data).length = s.data.length := by rw [h2]
  have h4 : fernetMagic.length = 7 := by decide
  rw [List.length_append] at h3
  omega

/-- `encrypt_message` succeeds on any content with a character outside
Python's whitespace set. -/
lemma encrypt_message_ok {s : String} (h : s.data.all pyIsSpace = false) :
    encrypt_message s = .ok (fernetEncrypt s) := by
  simp [encrypt_message, h]

/-- `decrypt_message` inverts `encrypt_message`'s output. -/
lemma decrypt_message_fernetEncrypt (s : String) :
    decrypt_message (fernetEncrypt s) = .ok s := by
  unfold decrypt_message
  rw [if_neg (fernetEncrypt_ne_empty s), fernetDecrypt_fernetEncrypt]

/-! ## C4: the encrypt/decrypt round trip -/

/-- C4 counterexample: the claim quantifies over every plaintext of nonzero
length, but `encrypt_message` rejects whitespace-only content, so for
`s = " "` (length 1) the round trip does not return `s` — encryption already
fails with the empty-input error. The same holds at the vertical tab `"\x0b"`,
which Python's `str.strip()` also removes. -/
theorem roundtrip_fails_on_whitespace_plaintext :
    (" " : String).length ≠ 0 ∧
    encrypt_message " " = .error .emptyInput ∧
    (encrypt_message " ").bind decrypt_message ≠ .ok " " ∧
    ("\x0b" : String).length ≠ 0 ∧
    encrypt_message "\x0b" = .error .emptyInput ∧
    (encrypt_message "\x0b").bind decrypt_message ≠ .ok "\x0b" := by
  refine ⟨by decide, by decide, by decide, by decide, by decide, by decide⟩

/-- C4 (amended): for every plaintext containing at least one character that
`str.strip()` does not remove (a character outside Python's whitespace set),
decryption of the encryption returns the original plaintext. -/
theorem encrypt_decrypt_roundtrip (s : String)
    (h : s.data.all pyIsSpace = false) :
    (encrypt_message s).bind decrypt_message = .ok s := by
  rw [encrypt_message_ok h]
  show decrypt_message (fernetEncrypt s) = .ok s
  exact decrypt_message_fernetEncrypt s

/-- C4 witness: the round trip evaluated on the concrete plaintext "hi". -/
theorem encrypt_decrypt_roundtrip_witness :
    (encrypt_message "hi").bind decrypt_message = .ok "hi" :=
  encrypt_decrypt_roundtrip "hi" (by decide)

/-! ## C8: self-conversation rejection -/

/-- C8: for every user and every pair of store snapshots, asking for a
conversation of a user with themselves fails with `InvalidParticipantError`.
The result is the same constant for all snapshots — the guard fires before the
lookup or the insert touch the store — and no modified store is returned. -/
theorem get_or_create_self_rejected (stSel stIns st : Store) (u : Nat) :
    get_or_create_conversation_raced stSel stIns u u = .error .invalidParticipant ∧
    get_or_create_conversation st u u = .error .invalidParticipant := by
  constructor <;>
    simp [get_or_create_conversation, get_or_create_conversation_raced]

/-! ## C1: commutativity and canonical ordering -/

/-- Ordering an unordered pair of distinct ids is symmetric. -/
lemma orderPair_comm {u p : Nat} (h : u ≠ p) : orderPair u p = orderPair p u := by
  unfold orderPair
  rcases Nat.lt_trichotomy u p with hlt | heq | hgt
  · rw [if_pos hlt, if_neg (Nat.not_lt.mpr (Nat.le_of_lt hlt))]
  · exact absurd heq h
  · rw [if_neg (Nat.not_lt.mpr (Nat.le_of_lt hgt)), if_pos hgt]

/-- The ordered pair of distinct ids is strictly increasing. -/
lemma orderPair_lt {u p : Nat} (h : u ≠ p) : (orderPair u p).1 < (orderPair u p).2 := by
  unfold orderPair
  rcases Nat.lt_trichotomy u p with hlt | heq | hgt
  · rw [if_pos hlt]; exact hlt
  · exact absurd heq h
  · rw [if_neg (Nat.not_lt.mpr (Nat.le_of_lt hgt))]; exact hgt

/-- C1: for distinct users, `get_or_create_conversation` is symmetric in its
two arguments — both call orders resolve to the identical conversation record
and store — and any record it returns has its participants strictly ordered,
`participant_1_id < participant_2_id`. -/
theorem get_or_create_conversation_commutative (st : Store) (u p : Nat) (h : u ≠ p) :
    get_or_create_conversation st u p = get_or_create_conversation st p u ∧
    ∀ r st', get_or_create_conversation st u p = .ok (r, st') →
      r.participant_1_id < r.participant_2_id := by
  constructor
  · unfold get_or_create_conversation get_or_create_conversation_raced
    rw [if_neg h, if_neg (Ne.symm h), orderPair_comm h]
  · intro r st' hok
    unfold get_or_create_conversation get_or_create_conversation_raced at hok
    rw [if_neg h] at hok
    cases hfind : findConversationByPair st.conversations
        (orderPair u p).1 (orderPair u p).2 with
    | some conv =>
      rw [hfind] at hok
      simp only [Except.ok.injEq, Prod.mk.injEq] at hok
      obtain ⟨hconv, -⟩ := hok
      subst hconv
      unfold findConversationByPair at hfind
      have hpred := List.find?_some hfind
      simp only [Bool.and_eq_true, decide_eq_true_eq] at hpred
      rw [hpred.1, hpred.2]
      exact orderPair_lt h
    | none =>
      rw [hfind] at hok
      cases hins : insertConversation st (orderPair u p).1 (orderPair u p).2 with
      | error e => rw [hins] at hok; simp at hok
      | ok rs =>
        rw [hins] at hok
        simp only [Except.ok.injEq] at hok
        unfold insertConversation at hins
        by_cases hany : st.conversations.any
            (fun c => c.participant_1_id = (orderPair u p).1 &&
              c.participant_2_id = (orderPair u p).2)
        · rw [if_pos hany] at hins; simp at hins
        · rw [if_neg hany] at hins
          simp only [Except.ok.injEq] at hins
          have h1 : rs.1.participant_1_id = (orderPair u p).1 := by rw [← hins]
          have h2 : rs.1.participant_2_id = (orderPair u p).2 := by rw [← hins]
          rw [hok] at h1 h2
          rw [h1, h2]
          exact orderPair_lt h

/-- Sample store for the C1 witness: no conversations yet. -/
def commStore : Store := ⟨[], [], 0, 0, 0⟩

/-- C1 witness: both call orders on an empty store create and return the same
record, ordered low-before-high, for the concrete users 2 and 1. -/
theorem get_or_create_conversation_commutative_witness :
    get_or_create_conversation commStore 2 1 = get_or_create_conversation commStore 1 2 ∧
    ∀ r st', get_or_create_conversation commStore 2 1 = .ok (r, st') →
      r.participant_1_id < r.participant_2_id :=
  get_or_create_conversation_commutative commStore 2 1 (by decide)

/-! ## C6: behaviour on a lost insert race -/

/-- Snapshot seen by the lookup in the C6 scenario: no conversation yet. -/
def racedSelStore : Store := ⟨[], [], 0, 0, 0⟩

/-- Snapshot seen by the insert in the C6 scenario: a concurrent caller has
already created the conversation for the pair (1, 2). -/
def racedInsStore : Store := ⟨[⟨0, 1, 2, 0, 0⟩], [], 1, 0, 1⟩

/-- C6 counterexample: with the pair's conversation created between the lookup
and the insert, the insert is rejected by the uniqueness constraint and
`get_or_create_conversation` surfaces a generic error — it does not re-fetch
and return the existing record, although that record is present and found by
the pair lookup in the insert-time snapshot. -/
theorem get_or_create_conflict_surfaces_error :
    get_or_create_conversation_raced racedSelStore racedInsStore 1 2 = .error .generic ∧
    findConversationByPair racedInsStore.conversations 1 2 = some ⟨0, 1, 2, 0, 0⟩ := by
  refine ⟨by decide, by decide⟩

/-- C6 (amended): whenever the lookup misses but the insert-time snapshot
already holds a conversation for the ordered pair, the uniqueness-constraint
rejection falls into the service's catch-all and the call returns a generic
error instead of the existing conversation. -/
theorem get_or_create_conflict_generic_error (stSel stIns : Store) (u p : Nat)
    (h : u ≠ p)
    (hmiss : findConversationByPair stSel.conversations
      (orderPair u p).1 (orderPair u p).2 = none)
    (hconflict : stIns.conversations.any
      (fun c => c.participant_1_id = (orderPair u p).1 &&
        c.participant_2_id = (orderPair u p).2) = true) :
    get_or_create_conversation_raced stSel stIns u p = .error .generic := by
  unfold get_or_create_conversation_raced
  rw [if_neg h, hmiss]
  unfold insertConversation
  rw [hconflict]
  rfl

/-- C6 witness: the amended behaviour evaluated on the concrete race between
users 1 and 2. -/
theorem get_or_create_conflict_generic_error_witness :
    get_or_create_conversation_raced racedSelStore racedInsStore 1 2 = .error .generic :=
  get_or_create_conflict_generic_error racedSelStore racedInsStore 1 2
    (by decide) (by decide) (by decide)

/-! ## C2: sends persist only ciphertext -/

/-- C2: every successful send appends exactly one row to the message store,
whose `content_encrypted` field is the cipher's output for the plaintext; the
plaintext appears only in the in-memory response (`content` field), and the
newly written row does not carry the plaintext — its stored blob differs from
it. -/
theorem send_message_persists_only_ciphertext
    (st : Store) (cid sender : Nat) (content : String) (out : MessageOut) (st' : Store)
    (hok : send_message st cid sender content = .ok (out, st')) :
    st'.messages = st.messages ++
      [⟨st.nextMsgId, cid, sender, fernetEncrypt content, false, st.now⟩] ∧
    encrypt_message content = .ok (fernetEncrypt content) ∧
    out.content = content ∧
    out.content_encrypted = fernetEncrypt content ∧
    ∀ m ∈ st'.messages, m ∉ st.messages → m.content_encrypted ≠ content := by
  unfold send_message at hok
  split at hok
  · simp at hok
  · split at hok
    · simp at hok
    · split at hok
      · simp at hok
      · next enc henc =>
        simp only [Except.ok.injEq, Prod.mk.injEq] at hok
        obtain ⟨hout, hst⟩ := hok
        have hencval : enc = fernetEncrypt content := by
          unfold encrypt_message at henc
          split at henc
          · simp at henc
          · simp only [Except.ok.injEq] at henc
            exact henc.symm
        subst hencval
        have hmsgs : st'.messages = st.messages ++
            [⟨st.nextMsgId, cid, sender, fernetEncrypt content, false, st.now⟩] := by
          rw [← hst]
        refine ⟨hmsgs, henc, ?_, ?_, ?_⟩
        · rw [← hout]
        · rw [← hout]
        · intro m hm hnot
          rw [hmsgs] at hm
          rcases List.mem_append.mp hm with hmem | hmem
          · exact absurd hmem hnot
          · have hrow : m = ⟨st.nextMsgId, cid, sender, fernetEncrypt content, false, st.now⟩ := by
              simpa using hmem
            rw [hrow]
            exact fernetEncrypt_ne content

/-- Sample store for the C2 witness: one conversation between users 1 and 2,
no messages yet. -/
def sendStore : Store := ⟨[⟨0, 1, 2, 0, 0⟩], [], 1, 0, 1⟩

/-- The response the C2 witness send produces. -/
def sendOut : MessageOut := ⟨0, 0, 1, fernetEncrypt "hi", "hi", false, 1⟩

/-- The store after the C2 witness send. -/
def sendOutStore : Store :=
  ⟨[⟨0, 1, 2, 0, 0⟩], [⟨0, 0, 1, fernetEncrypt "hi", false, 1⟩], 1, 1, 2⟩

/-- C2 witness: user 1 sends "hi" in the sample conversation; the appended row
stores the token, the echoed response carries the plaintext. -/
theorem send_message_persists_only_ciphertext_witness :
    sendOutStore.messages = sendStore.messages ++
      [⟨sendStore.nextMsgId, 0, 1, fernetEncrypt "hi", false, sendStore.now⟩] ∧
    encrypt_message "hi" = .ok (fernetEncrypt "hi") ∧
    sendOut.content = "hi" ∧
    sendOut.content_encrypted = fernetEncrypt "hi" ∧
    ∀ m ∈ sendOutStore.messages, m ∉ sendStore.messages → m.content_encrypted ≠ "hi" :=
  send_message_persists_only_ciphertext sendStore 0 1 "hi" sendOut sendOutStore (by decide)

/-! ## C3: mark-read semantics -/

/-- Sample store for C3: a conversation between users 1 and 2, holding one
message with id 0 sent by user 1 (the situation right after
`send(conv, A, "hi")` with A = 1, B = 2). -/
def markStore : Store :=
  ⟨[⟨0, 1, 2, 0, 0⟩], [⟨0, 0, 1, fernetEncrypt "hi", false, 0⟩], 1, 1, 1⟩

/-- C3 counterexample: the sender's own mark returns 0 and the recipient's
first mark returns 1 as claimed, but the claimed idempotence fails — the
update query has no `is_read = false` filter, the already-read row is matched
and counted again, so the recipient's second identical call returns 1, not 0. -/
theorem mark_messages_as_read_not_idempotent :
    (mark_messages_as_read markStore 1 [0]).1 = 0 ∧
    (mark_messages_as_read markStore 2 [0]).1 = 1 ∧
    (mark_messages_as_read (mark_messages_as_read markStore 2 [0]).2 2 [0]).1 = 1 ∧
    (mark_messages_as_read (mark_messages_as_read markStore 2 [0]).2 2 [0]).1 ≠ 0 := by
  refine ⟨by decide, by decide, by decide, by decide⟩

/-- Shared behaviour of `mark_messages_as_read` on a single-id call: the
viewer's own message yields count 0 and an untouched store; a message from a
different sender is updated (read already or not) with count 1 and ends up
read. -/
lemma mark_single_id_read_spec
    (st : Store) (user : Nat) (m : MessageRow)
    (hfind : st.messages.find? (fun r => r.id = m.id) = some m) :
    (m.sender_id = user → mark_messages_as_read st user [m.id] = (0, st)) ∧
    (m.sender_id ≠ user →
      (mark_messages_as_read st user [m.id]).1 = 1 ∧
      ∀ r ∈ (mark_messages_as_read st user [m.id]).2.messages,
        r.id = m.id → r.is_read = true) := by
  constructor
  · intro hsender
    simp [mark_messages_as_read, markOneMessageRead, hfind, hsender]
  · intro hsender
    constructor
    · simp [mark_messages_as_read, markOneMessageRead, hfind, hsender]
    · intro r hr hid
      simp only [mark_messages_as_read, List.foldl_cons, List.foldl_nil,
        markOneMessageRead, hfind] at hr
      rw [if_pos hsender] at hr
      simp only [List.mem_map] at hr
      obtain ⟨r0, hr0, hr0eq⟩ := hr
      by_cases hr0id : r0.id = m.id
      · rw [if_pos hr0id] at hr0eq
        rw [← hr0eq]
      · rw [if_neg hr0id] at hr0eq
        rw [← hr0eq] at hid
        exact absurd hid hr0id

/-- C3 (amended): `mark_messages_as_read` flips the read flag to true only for
messages whose sender differs from the viewer, and messages sent by the viewer
are silently skipped with count 0; but the returned count is the number of
rows updated, not the number newly flipped — a message whose sender differs
from the viewer contributes 1 whether or not it was already read, so the
operation is not idempotent: a repeated call by the recipient returns 1 again. -/
theorem mark_messages_as_read_counts_repeat_updates
    (st : Store) (user : Nat) (m : MessageRow)
    (hfind : st.messages.find? (fun r => r.id = m.id) = some m) :
    (m.sender_id = user → mark_messages_as_read st user [m.id] = (0, st)) ∧
    (m.sender_id ≠ user →
      (mark_messages_as_read st user [m.id]).1 = 1 ∧
      ∀ r ∈ (mark_messages_as_read st user [m.id]).2.messages,
        r.id = m.id → r.is_read = true) :=
  mark_single_id_read_spec st user m hfind

/-- C3 witness: the amended semantics evaluated on the sample store — the
recipient (user 2) gets count 1 and the row ends up read; the sender branch is
vacuous there since the sender is user 1. -/
theorem mark_messages_as_read_counts_repeat_updates_witness :
    ((⟨0, 0, 1, fernetEncrypt "hi", false, 0⟩ : MessageRow).sender_id = 2 →
      mark_messages_as_read markStore 2 [0] = (0, markStore)) ∧
    ((⟨0, 0, 1, fernetEncrypt "hi", false, 0⟩ : MessageRow).sender_id ≠ 2 →
      (mark_messages_as_read markStore 2 [0]).1 = 1 ∧
      ∀ r ∈ (mark_messages_as_read markStore 2 [0]).2.messages,
        r.id = 0 → r.is_read = true) :=
  mark_messages_as_read_counts_repeat_updates markStore 2
    ⟨0, 0, 1, fernetEncrypt "hi", false, 0⟩ (by decide)

/-! ## C9: no participancy check in mark-read -/

/-- C9: `mark_messages_as_read` consults only the `messages` table — for any
contents of the `conversations` table, including one where the caller is not a
participant of the message's conversation (or where that conversation does not
even exist), an existing message from a different sender is still flipped to
read and counted, and the call raises no authorization error. -/
theorem mark_messages_as_read_ignores_participancy
    (st : Store) (user : Nat) (m : MessageRow) (convs : List ConversationRow)
    (hfind : st.messages.find? (fun r => r.id = m.id) = some m)
    (hsender : m.sender_id ≠ user)
    (_hnp : ∀ c ∈ convs, c.id = m.conversation_id → isParticipant c user = false) :
    (mark_messages_as_read { st with conversations := convs } user [m.id]).1 = 1 ∧
    ∀ r ∈ (mark_messages_as_read { st with conversations := convs } user [m.id]).2.messages,
      r.id = m.id → r.is_read = true := by
  have hfind' : ({ st with conversations := convs } : Store).messages.find?
      (fun r => r.id = m.id) = some m := hfind
  exact (mark_single_id_read_spec
    { st with conversations := convs } user m hfind').2 hsender

/-- Store for the C9 witness: the single message's conversation id 0 names a
conversation between users 7 and 8, so the caller (user 2) is not a
participant. -/
def foreignStore : Store :=
  ⟨[⟨0, 7, 8, 0, 0⟩], [⟨0, 0, 1, fernetEncrypt "hi", false, 0⟩], 1, 1, 1⟩

/-- C9 witness: user 2, a non-participant of conversation 0, still marks its
message read and gets count 1. -/
theorem mark_messages_as_read_ignores_participancy_witness :
    (mark_messages_as_read
      { (⟨[], [⟨0, 0, 1, fernetEncrypt "hi", false, 0⟩], 1, 1, 1⟩ : Store) with
        conversations := [⟨0, 7, 8, 0, 0⟩] } 2 [0]).1 = 1 ∧
    ∀ r ∈ (mark_messages_as_read
      { (⟨[], [⟨0, 0, 1, fernetEncrypt "hi", false, 0⟩], 1, 1, 1⟩ : Store) with
        conversations := [⟨0, 7, 8, 0, 0⟩] } 2 [0]).2.messages,
      r.id = 0 → r.is_read = true :=
  mark_messages_as_read_ignores_participancy
    ⟨[], [⟨0, 0, 1, fernetEncrypt "hi", false, 0⟩], 1, 1, 1⟩ 2
    ⟨0, 0, 1, fernetEncrypt "hi", false, 0⟩ [⟨0, 7, 8, 0, 0⟩]
    (by decide) (by decide) (by decide)

/-! ## Lemmas about listing -/

/-- Inserting into a sorted-descending list is a permutation of consing. -/
lemma insertByKeyDesc_perm {α : Type} (key : α → Nat) (a : α) (l : List α) :
    List.Perm (insertByKeyDesc key a l) (a :: l) := by
  induction l with
  | nil => exact List.Perm.refl _
  | cons x xs ih =>
    unfold insertByKeyDesc
    by_cases h : key x ≤ key a
    · rw [if_pos h]
    · rw [if_neg h]
      exact (ih.cons x).trans (List.Perm.swap a x xs)

/-- The descending sort permutes its input. -/
lemma sortByKeyDesc_perm {α : Type} (key : α → Nat) (l : List α) :
    List.Perm (sortByKeyDesc key l) l := by
  induction l with
  | nil => exact List.Perm.refl _
  | cons x xs ih =>
    unfold sortByKeyDesc
    exact (insertByKeyDesc_perm key x (sortByKeyDesc key xs)).trans (ih.cons x)

/-- Ordering a conversation's messages does not change how many there are. -/
lemma length_conversationMessages (st : Store) (cid : Nat) :
    (conversationMessages st cid).length =
      (st.messages.filter (fun m => m.conversation_id = cid)).length :=
  (sortByKeyDesc_perm _ _).length_eq

/-- `filterMap` by a function that succeeds on every element of the list keeps
its length. -/
lemma length_filterMap_all_some {α β : Type} (f : α → Option β) (l : List α)
    (h : ∀ a ∈ l, (f a).isSome = true) : (l.filterMap f).length = l.length := by
  revert h
  induction l with
  | nil => intro h; rfl
  | cons a as ih =>
    intro h
    cases hfa : f a with
    | none =>
      have hs := h a (List.mem_cons_self a as)
      rw [hfa] at hs
      simp at hs
    | some b =>
      simp only [List.filterMap_cons, hfa, List.length_cons]
      rw [ih (fun x hx => h x (List.mem_cons_of_mem a hx))]

/-- A list with a member is not empty. -/
lemma isEmpty_false_of_mem {α : Type} {a : α} {l : List α} (h : a ∈ l) :
    l.isEmpty = false := by
  cases l with
  | nil => cases h
  | cons x xs => rfl

/-- The shape of a successful `get_conversation_messages` call whose page
slice is nonempty. -/
lemma get_conversation_messages_eq (st : Store) (cid user page psz : Nat)
    (conv : ConversationRow)
    (hconv : findConversationById st.conversations cid = some conv)
    (hpart : isParticipant conv user = true)
    (hne : (pageOf (conversationMessages st cid) page psz).isEmpty = false) :
    get_conversation_messages st cid user page psz =
      .ok { messages := (pageOf (conversationMessages st cid) page psz).filterMap formatMessage
            total := (st.messages.filter (fun m => m.conversation_id = cid)).length
            page := page
            page_size := psz
            has_more := decide (page * psz <
              (st.messages.filter (fun m => m.conversation_id = cid)).length) } := by
  unfold get_conversation_messages
  split
  · next heq =>
    rw [hconv] at heq
    cases heq
  · next conv2 heq =>
    rw [hconv] at heq
    injection heq with heq2
    subst heq2
    simp [hpart, hne]

/-- A formatted message keeps the stored message's id. -/
lemma formatMessage_id {m : MessageRow} {out : MessageOut}
    (h : formatMessage m = some out) : out.id = m.id := by
  unfold formatMessage at h
  split at h
  · injection h with h2
    rw [← h2]
  · cases h

/-- A message whose ciphertext fails to decrypt is skipped by formatting. -/
lemma formatMessage_none {m : MessageRow} {e : EncError}
    (h : decrypt_message m.content_encrypted = .error e) : formatMessage m = none := by
  unfold formatMessage
  rw [h]

/-- A message whose ciphertext decrypts is kept by formatting. -/
lemma formatMessage_some {m : MessageRow} {c : String}
    (h : decrypt_message m.content_encrypted = .ok c) :
    formatMessage m = some ⟨m.id, m.conversation_id, m.sender_id, m.content_encrypted, c,
      m.is_read, m.created_at⟩ := by
  unfold formatMessage
  rw [h]

/-- Distinct stored message ids stay distinct on any page slice. -/
lemma nodup_ids_pageOf (st : Store) (cid page psz : Nat)
    (h : (st.messages.map MessageRow.id).Nodup) :
    ((pageOf (conversationMessages st cid) page psz).map MessageRow.id).Nodup := by
  have h1 : List.Sublist
      ((st.messages.filter (fun m => m.conversation_id = cid)).map MessageRow.id)
      (st.messages.map MessageRow.id) :=
    (List.filter_sublist st.messages).map MessageRow.id
  have h2 := h.sublist h1
  have h3 : List.Perm ((conversationMessages st cid).map MessageRow.id)
      ((st.messages.filter (fun m => m.conversation_id = cid)).map MessageRow.id) := by
    unfold conversationMessages
    exact (sortByKeyDesc_perm (fun m => m.created_at)
      (st.messages.filter (fun m => m.conversation_id = cid))).map MessageRow.id
  have h4 := h3.nodup_iff.mpr h2
  have h5 : List.Sublist (pageOf (conversationMessages st cid) page psz)
      (conversationMessages st cid) :=
    (List.take_sublist ..).trans (List.drop_sublist ..)
  exact h4.sublist (h5.map MessageRow.id)

/-! ## C5: per-message decryption failures are isolated -/

/-- C5: when the requested page of an authorized listing contains a message
whose ciphertext does not decrypt, the call still succeeds, that message is
excluded from the returned list, and every message of the same page whose
decryption succeeds is still returned. -/
theorem get_conversation_messages_isolates_failures
    (st : Store) (cid user page psz : Nat) (conv : ConversationRow)
    (bad : MessageRow) (e : EncError)
    (hconv : findConversationById st.conversations cid = some conv)
    (hpart : isParticipant conv user = true)
    (hnodup : (st.messages.map MessageRow.id).Nodup)
    (hbadmem : bad ∈ pageOf (conversationMessages st cid) page psz)
    (hbadfail : decrypt_message bad.content_encrypted = .error e) :
    ∃ r, get_conversation_messages st cid user page psz = .ok r ∧
      (∀ out ∈ r.messages, out.id ≠ bad.id) ∧
      (∀ m ∈ pageOf (conversationMessages st cid) page psz,
        (∃ c, decrypt_message m.content_encrypted = .ok c) →
        ∃ out ∈ r.messages, out.id = m.id) := by
  have hne := isEmpty_false_of_mem hbadmem
  refine ⟨_, get_conversation_messages_eq st cid user page psz conv hconv hpart hne, ?_, ?_⟩
  · intro out hout heq
    rcases List.mem_filterMap.mp hout with ⟨m, hm, hfmt⟩
    have hid := formatMessage_id hfmt
    have hmb : m = bad := by
      have hnd := nodup_ids_pageOf st cid page psz hnodup
      exact List.inj_on_of_nodup_map hnd hm hbadmem (by rw [← hid]; exact heq)
    rw [hmb, formatMessage_none hbadfail] at hfmt
    cases hfmt
  · rintro m hm ⟨c, hc⟩
    exact ⟨_, List.mem_filterMap.mpr ⟨m, hm, formatMessage_some hc⟩, rfl⟩

/-- Store for the C5 witness: conversation 0 between users 1 and 2, one valid
message (id 0) and one message with corrupted ciphertext (id 1). -/
def corruptStore : Store :=
  ⟨[⟨0, 1, 2, 0, 0⟩],
   [⟨0, 0, 1, fernetEncrypt "hi", false, 0⟩,
    ⟨1, 0, 1, "corrupt", false, 1⟩], 1, 2, 2⟩

/-- C5 witness: listing page 1 of the sample conversation succeeds, omits the
corrupted row (id 1) and keeps every decryptable row of that page. -/
theorem get_conversation_messages_isolates_failures_witness :
    ∃ r, get_conversation_messages corruptStore 0 1 1 50 = .ok r ∧
      (∀ out ∈ r.messages, out.id ≠ (1 : Nat)) ∧
      (∀ m ∈ pageOf (conversationMessages corruptStore 0) 1 50,
        (∃ c, decrypt_message m.content_encrypted = .ok c) →
        ∃ out ∈ r.messages, out.id = m.id) :=
  get_conversation_messages_isolates_failures corruptStore 0 1 1 50 ⟨0, 1, 2, 0, 0⟩
    ⟨1, 0, 1, "corrupt", false, 1⟩ .decryptionFailed
    (by decide) (by decide) (by decide) (by decide) (by decide)

/-! ## C7: pagination semantics -/

/-- Store for the C7 counterexample: conversation 0 holds exactly one stored
message. -/
def pageStore : Store :=
  ⟨[⟨0, 1, 2, 0, 0⟩], [⟨0, 0, 1, fernetEncrypt "hi", false, 0⟩], 1, 1, 1⟩

/-- C7 counterexample: the conversation stores 1 message, but requesting page
2 with page size 50 — a page past the end — returns `total = 0`, not the
stored count, because the service short-circuits on an empty page slice; so
the claim that the returned total always equals the stored count fails. -/
theorem get_conversation_messages_total_zero_on_empty_page :
    get_conversation_messages pageStore 0 1 2 50 =
      .ok { messages := [], total := 0, page := 2, page_size := 50, has_more := false } ∧
    (pageStore.messages.filter (fun m => m.conversation_id = 0)).length = 1 ∧
    (0 : Nat) ≠ 1 := by
  refine ⟨by decide, by decide, by decide⟩

/-- C7 (amended): pages are 1-indexed and, whenever the requested page slice
is nonempty, the returned total equals the stored count of the conversation's
messages, `has_more = (page * pageSize < total)`, and (when every message of
the slice decrypts) the page holds `min pageSize (total - (page-1)*pageSize)`
messages — so with 125 stored messages and page size 50, pages 1 and 2 return
50 with `has_more = true` and page 3 returns 25 with `has_more = false`; a
page past the end instead short-circuits to an empty response with
`total = 0`. -/
theorem get_conversation_messages_pagination
    (st : Store) (cid user page psz : Nat) (conv : ConversationRow)
    (hconv : findConversationById st.conversations cid = some conv)
    (hpart : isParticipant conv user = true)
    (hne : (pageOf (conversationMessages st cid) page psz).isEmpty = false) :
    ∃ r, get_conversation_messages st cid user page psz = .ok r ∧
      r.total = (st.messages.filter (fun m => m.conversation_id = cid)).length ∧
      r.has_more = decide (page * psz < r.total) ∧
      r.page = page ∧ r.page_size = psz ∧
      ((∀ m ∈ pageOf (conversationMessages st cid) page psz,
          ∃ c, decrypt_message m.content_encrypted = .ok c) →
        r.messages.length = min psz (r.total - (page - 1) * psz)) := by
  refine ⟨_, get_conversation_messages_eq st cid user page psz conv hconv hpart hne,
    rfl, rfl, rfl, rfl, ?_⟩
  intro hall
  have hsome : ∀ m ∈ pageOf (conversationMessages st cid) page psz,
      (formatMessage m).isSome = true := by
    intro m hm
    rcases hall m hm with ⟨c, hc⟩
    rw [formatMessage_some hc]
    rfl
  have hlen := length_filterMap_all_some formatMessage
    (pageOf (conversationMessages st cid) page psz) hsome
  show (List.filterMap formatMessage (pageOf (conversationMessages st cid) page psz)).length
      = min psz ((st.messages.filter (fun m => m.conversation_id = cid)).length -
          (page - 1) * psz)
  rw [hlen]
  unfold pageOf
  rw [List.length_take, List.length_drop, length_conversationMessages]

/-- Store for the C7 witness: conversation 0 holds three stored messages. -/
def pageStore7 : Store :=
  ⟨[⟨0, 1, 2, 0, 0⟩],
   [⟨0, 0, 1, fernetEncrypt "a", false, 0⟩,
    ⟨1, 0, 1, fernetEncrypt "b", false, 1⟩,
    ⟨2, 0, 2, fernetEncrypt "c", false, 2⟩], 1, 3, 3⟩

/-- C7 witness: with 3 stored messages and page size 2, page 2 is nonempty:
total is 3, `has_more` is false, and the page holds `min 2 (3 - 2) = 1`
message. -/
theorem get_conversation_messages_pagination_witness :
    ∃ r, get_conversation_messages pageStore7 0 1 2 2 = .ok r ∧
      r.total = (pageStore7.messages.filter (fun m => m.conversation_id = 0)).length ∧
      r.has_more = decide (2 * 2 < r.total) ∧
      r.page = 2 ∧ r.page_size = 2 ∧
      ((∀ m ∈ pageOf (conversationMessages pageStore7 0) 2 2,
          ∃ c, decrypt_message m.content_encrypted = .ok c) →
        r.messages.length = min 2 (r.total - (2 - 1) * 2)) :=
  get_conversation_messages_pagination pageStore7 0 1 2 2 ⟨0, 1, 2, 0, 0⟩
    (by decide) (by decide) (by decide)

/-! ## C10: scoped search on a missing or foreign conversation -/

/-- C10: `search_messages` with an explicit conversation id returns the empty
list — raising neither a not-found nor an authorization error — whenever the
named conversation does not exist or the caller is not one of its two
participants. -/
theorem search_messages_scoped_returns_empty
    (st : Store) (user : Nat) (q : String) (cid : Nat)
    (h : findConversationById st.conversations cid = none ∨
         ∃ conv, findConversationById st.conversations cid = some conv ∧
           isParticipant conv user = false) :
    search_messages st user q (some cid) = .ok [] := by
  unfold search_messages
  rcases h with hnone | ⟨conv, hsome, hpart⟩
  · simp [hnone]
  · simp [hsome, hpart]

/-- Store for the C10 witness: one conversation (id 0) between users 1 and 2
with one stored message matching the query. -/
def searchStore : Store :=
  ⟨[⟨0, 1, 2, 0, 0⟩], [⟨0, 0, 1, fernetEncrypt "hello", false, 0⟩], 1, 1, 1⟩

/-- C10 witness: user 3 is not a participant of conversation 0, so a scoped
search returns the empty list even though a message matches the query. -/
theorem search_messages_scoped_returns_empty_witness :
    search_messages searchStore 3 "hello" (some 0) = .ok [] :=
  search_messages_scoped_returns_empty searchStore 3 "hello" 0
    (Or.inr ⟨⟨0, 1, 2, 0, 0⟩, by decide, by decide⟩)

end Uniboe
